import Mathlib

/-!
Shallow embedding of the logtime-mcp server (src/timesheet_mcp/main.py): an MCP
server exposing three tools (list_projects, log_time_project, list_invalid_days)
over the Insider timesheet REST API.

HTTP is modelled by oracles mapping request URLs (and payloads) to upstream
responses; each operation returns the list of HTTP calls it issued together
with its result.  Python exceptions are modelled as `Except String`; Python
floats are modelled as rationals; JSON day/entry objects from the calendar
endpoint are modelled as structures whose possibly-absent fields are `Option`s
(mirroring `dict.get` with defaults in the source).
-/

namespace TimesheetMCP

/-- Constant API_BASE_URL of main.py. -/
def API_BASE_URL : String := "https://insiderapi.saigontechnology.vn/api"

/-- Constant AUTH_TOKEN_ENV of main.py. -/
def AUTH_TOKEN_ENV : String := "INSIDER_AUTH_TOKEN"

/-- Constant USER_ID_ENV of main.py. -/
def USER_ID_ENV : String := "INSIDER_USER_ID"

/-- Constant EMP_CODE_ENV of main.py. -/
def EMP_CODE_ENV : String := "INSIDER_EMP_CODE"

/-- Model of the pydantic LogTimeInput: projectId, hours (float, ge=0.5 le=8),
logDates (list of strings), hourRate (int, default 1, no declared constraint:
the hourRate validator in the source is commented out), activity (int, default
1, no declared constraint: the activity validator is commented out), comment
(optional string defaulting to the empty string). -/
structure LogTimeInput where
  projectId : Int
  hours : ℚ
  logDates : List String
  hourRate : Int := 1
  activity : Int := 1
  comment : String := ""
deriving DecidableEq

/-- Pydantic validation of LogTimeInput: the only field constraints declared in
the source are ge=0.5 and le=8 on hours.  (The commented-out validators for
hourRate and activity perform no checks, and logDates has no non-emptiness or
format constraint.) -/
def LogTimeInput.validate (a : LogTimeInput) : Except String LogTimeInput :=
  if a.hours < 1/2 then
    .error "hours: Input should be greater than or equal to 0.5"
  else if 8 < a.hours then
    .error "hours: Input should be less than or equal to 8"
  else
    .ok a

/-- Model of the pydantic ListInvalidDaysInput: year (int, custom validator)
and month (int, ge=1 le=12). -/
structure ListInvalidDaysInput where
  year : Int
  month : Int
deriving DecidableEq

/-- Pydantic validation of ListInvalidDaysInput.  The year field validator
rejects years outside [2020, currentYear + 1]; month carries ge=1 and le=12.
The current year (datetime.datetime.now().year) is passed in as nowYear. -/
def ListInvalidDaysInput.validate (a : ListInvalidDaysInput) (nowYear : Int) :
    Except String ListInvalidDaysInput :=
  if a.year < 2020 ∨ nowYear + 1 < a.year then
    .error ("Year must be between 2020 and " ++ toString (nowYear + 1))
  else if a.month < 1 then
    .error "month: Input should be greater than or equal to 1"
  else if 12 < a.month then
    .error "month: Input should be less than or equal to 12"
  else
    .ok a

/-- Model of the Project pydantic model: id and name (extra upstream fields
are ignored by the source, which only reads id and name). -/
structure Project where
  id : Int
  name : String
deriving DecidableEq

/-- JSON payload POSTed to timesheet/add for one date (log_time). -/
structure TimesheetPayload where
  userId : Int
  empCode : String
  logDate : String
  hours : ℚ
  hourRate : Int
  activity : Int
  projectId : Int
  inquiryId : Option Int
  milestoneId : Option Int
  comment : String
deriving DecidableEq

/-- One entry of a day's logTimes sub-array as returned by the calendar
endpoint; every field the source reads via dict.get may be absent. -/
structure LogEntry where
  hours : Option ℚ := none
  projectName : Option String := none
  comment : Option String := none
deriving DecidableEq

/-- One day object returned by the timesheetCalendar endpoint.  All fields the
source reads with dict.get defaults are Options; logDate is also an Option
because the source reads it with an unguarded subscript (a missing key raises
KeyError). -/
structure DayData where
  logDate : Option String := none
  isValid : Option Bool := none
  invalidMessage : Option String := none
  isNormalWorkingDay : Option Bool := none
  isPublicHoliday : Option Bool := none
  logTimes : Option (List LogEntry) := none
deriving DecidableEq

/-- An HTTP request issued by the service, recorded in order. -/
inductive HttpCall where
  | get (url : String)
  | post (url : String) (body : TimesheetPayload)
deriving DecidableEq

/-- Oracle for the upstream API: responses of the three endpoints, keyed by
request URL, plus the current year read from the clock.  An .error response
models a requests.RequestException (transport failure or non-2xx status),
already reduced to the error-detail string the source would extract. -/
structure Network where
  nowYear : Int
  getProjects : String → Except String (List Project)
  postTimesheet : String → TimesheetPayload → Except String Unit
  getCalendar : String → Except String (List DayData)

/-- Model of InsiderAPIService state: the three credentials and the base URL. -/
structure InsiderAPIService where
  auth_token : String
  user_id : String
  emp_code : String
  base_url : String
deriving DecidableEq

/-- Model of InsiderAPIService.__init__: stores the credentials and raises
ValueError on the first empty one, in the order auth token, user id,
employee code. -/
def InsiderAPIService.init (auth_token user_id emp_code : String) :
    Except String InsiderAPIService :=
  if auth_token = "" then
    .error ("Auth token not provided (" ++ AUTH_TOKEN_ENV ++ " environment variable)")
  else if user_id = "" then
    .error ("User ID not provided (" ++ USER_ID_ENV ++ " environment variable)")
  else if emp_code = "" then
    .error ("Employee code not provided (" ++ EMP_CODE_ENV ++ " environment variable)")
  else
    .ok ⟨auth_token, user_id, emp_code, API_BASE_URL⟩

/-- Endpoint used by list_projects. -/
def InsiderAPIService.projects_endpoint (svc : InsiderAPIService) : String :=
  svc.base_url ++ "/project/get-basic/user/" ++ svc.user_id

/-- Model of InsiderAPIService.list_projects: one GET; on success the id/name
pairs are collected, on RequestException a RuntimeError with the extracted
detail is raised. -/
def InsiderAPIService.list_projects (svc : InsiderAPIService) (net : Network) :
    List HttpCall × Except String (List Project) :=
  match net.getProjects svc.projects_endpoint with
  | .ok ps => ([.get svc.projects_endpoint], .ok ps)
  | .error e => ([.get svc.projects_endpoint], .error ("Failed to fetch projects: " ++ e))

/-- Endpoint used by log_time. -/
def InsiderAPIService.timesheet_add_endpoint (svc : InsiderAPIService) : String :=
  svc.base_url ++ "/timesheet/add"

/-- Helper of strToInt?: fold decimal digits into an accumulator, failing on
the first non-digit character. -/
def strToNatAux : List Char → Nat → Option Nat
  | [], acc => some acc
  | c :: cs, acc =>
    if c.isDigit then strToNatAux cs (acc * 10 + (c.toNat - 48)) else none

/-- Model of Python int(...) applied to a decimal string: an optional leading
minus sign followed by at least one digit; anything else raises ValueError
(returns none here). -/
def strToInt? (s : String) : Option Int :=
  match s.data with
  | [] => none
  | c :: cs =>
    if c = '-' then
      match cs with
      | [] => none
      | _ :: _ => (strToNatAux cs 0).map (fun n => -(n : Int))
    else
      (strToNatAux s.data 0).map (fun n => (n : Int))

/-- The per-date success line appended to the result list by log_time. -/
def doneLine (projectId : Int) (date : String) : String :=
  "Project: " ++ toString projectId ++ ", date: " ++ date ++ ", status: done"

/-- The payload log_time builds for one date. -/
def mkTimesheetPayload (svc : InsiderAPIService) (inp : LogTimeInput) (uid : Int)
    (date : String) : TimesheetPayload :=
  { userId := uid
    empCode := svc.emp_code
    logDate := date
    hours := inp.hours
    hourRate := inp.hourRate
    activity := inp.activity
    projectId := inp.projectId
    inquiryId := none
    milestoneId := none
    comment := inp.comment }

/-- The date loop of InsiderAPIService.log_time.  For each date, in order:
parse int(self.user_id) (a non-numeric user id raises ValueError before the
POST), build the payload, POST it; on success append a done line and continue,
on RequestException raise RuntimeError immediately, so no later date is
attempted. -/
def log_time_go (svc : InsiderAPIService) (inp : LogTimeInput) (net : Network) :
    List String → List HttpCall × Except String (List String)
  | [] => ([], .ok [])
  | date :: rest =>
    match strToInt? svc.user_id with
    | none => ([], .error ("invalid literal for int with base 10: " ++ svc.user_id))
    | some uid =>
      let p := mkTimesheetPayload svc inp uid date
      match net.postTimesheet svc.timesheet_add_endpoint p with
      | .ok _ =>
        let next := log_time_go svc inp net rest
        (.post svc.timesheet_add_endpoint p :: next.1,
         next.2.map (fun lines => doneLine inp.projectId date :: lines))
      | .error e =>
        ([.post svc.timesheet_add_endpoint p], .error ("Failed to log time: " ++ e))

/-- The dict returned by log_time on full success. -/
structure LogTimeResult where
  result : List String
deriving DecidableEq

/-- Model of InsiderAPIService.log_time: run the date loop over
logDates and wrap the collected lines. -/
def InsiderAPIService.log_time (svc : InsiderAPIService) (inp : LogTimeInput)
    (net : Network) : List HttpCall × Except String LogTimeResult :=
  let r := log_time_go svc inp net inp.logDates
  (r.1, r.2.map (fun lines => ⟨lines⟩))

/-- A calendar date (year, month, day), as Python datetime.date. -/
structure Date where
  year : Int
  month : Int
  day : Int
deriving DecidableEq

/-- Gregorian leap-year rule (Python calendar semantics). -/
def isLeapYear (y : Int) : Bool :=
  (y % 4 == 0 && y % 100 != 0) || y % 400 == 0

/-- Number of days of month m of year y (Gregorian). -/
def daysInMonth (y m : Int) : Int :=
  if m = 2 then (if isLeapYear y then 29 else 28)
  else if m = 4 ∨ m = 6 ∨ m = 9 ∨ m = 11 then 30
  else 31

/-- Model of Python date arithmetic d - timedelta(days=1) on a valid date:
decrement the day, rolling into the previous month (and for January 1 into
December 31 of the previous year). -/
def Date.predDay (d : Date) : Date :=
  if 1 < d.day then ⟨d.year, d.month, d.day - 1⟩
  else if 1 < d.month then ⟨d.year, d.month - 1, daysInMonth d.year (d.month - 1)⟩
  else ⟨d.year - 1, 12, 31⟩

/-- The first_date/last_date computation of list_invalid_days: first_date is
the first of the month; last_date is date(year+1, 1, 1) - timedelta(days=1)
for December, else date(year, month+1, 1) - timedelta(days=1). -/
def invalidDaysRange (year month : Int) : Date × Date :=
  let first_date : Date := ⟨year, month, 1⟩
  let last_date : Date :=
    if month = 12 then Date.predDay ⟨year + 1, 1, 1⟩
    else Date.predDay ⟨year, month + 1, 1⟩
  (first_date, last_date)

/-- Two-digit zero padding, as strftime %m / %d. -/
def pad2 (n : Int) : String :=
  if n < 10 then "0" ++ toString n else toString n

/-- strftime %Y-%m-%d formatting of a date (years here are all four-digit). -/
def Date.fmt (d : Date) : String :=
  toString d.year ++ "-" ++ pad2 d.month ++ "-" ++ pad2 d.day

/-- Endpoint used by list_invalid_days: the timesheetCalendar URL carrying the
formatted first and last date of the month. -/
def InsiderAPIService.calendar_endpoint (svc : InsiderAPIService)
    (year month : Int) : String :=
  svc.base_url ++ "/timesheet/" ++ svc.emp_code ++ "/timesheetCalendar/" ++
    (invalidDaysRange year month).1.fmt ++ "/" ++ (invalidDaysRange year month).2.fmt

/-- The invalid-day test of list_invalid_days:
not day_data.get("isValid", True). -/
def isInvalidDay (d : DayData) : Bool :=
  !(d.isValid.getD true)

/-- Total logged hours of a day: sum of hours (default 0) over the logTimes
sub-array (default empty). -/
def dayTotalHours (d : DayData) : ℚ :=
  ((d.logTimes.getD []).map (fun lt => lt.hours.getD 0)).sum

/-- The invalid_day_info dict built for each invalid day. -/
structure InvalidDayInfo where
  date : String
  invalidMessage : String
  currentLoggedHours : ℚ
  expectedHours : ℚ
  shortfall : ℚ
  isNormalWorkingDay : Bool
  isPublicHoliday : Bool
  logTimes : List LogEntry
deriving DecidableEq

/-- Build the info record of one invalid day.  The source reads logDate with an
unguarded subscript, so a missing logDate raises KeyError (modelled as the
error string below); every other field has a dict.get default. -/
def processDay (d : DayData) : Except String InvalidDayInfo :=
  match d.logDate with
  | none => .error "KeyError: logDate"
  | some ld =>
      .ok { date := ld.take 10
            invalidMessage := d.invalidMessage.getD "No message provided"
            currentLoggedHours := dayTotalHours d
            expectedHours := 8
            shortfall := 8 - dayTotalHours d
            isNormalWorkingDay := d.isNormalWorkingDay.getD false
            isPublicHoliday := d.isPublicHoliday.getD false
            logTimes := d.logTimes.getD [] }

/-- The filtering loop of list_invalid_days: keep the days whose isValid field
is present and false, building their info records in order; a KeyError on any
kept day aborts the whole loop. -/
def processDays : List DayData → Except String (List InvalidDayInfo)
  | [] => .ok []
  | d :: rest =>
    if isInvalidDay d then
      match processDay d with
      | .error e => .error e
      | .ok info => (processDays rest).map (fun l => info :: l)
    else
      processDays rest

/-- The dict returned by list_invalid_days. -/
structure InvalidDaysResult where
  month : String
  totalInvalidDays : Nat
  invalidDays : List InvalidDayInfo
deriving DecidableEq

/-- The month label of the result. -/
def monthLabel (year month : Int) : String :=
  toString year ++ "-" ++ pad2 month

/-- Model of InsiderAPIService.list_invalid_days: one GET of the calendar for
the computed month range, then the filtering loop.  A RequestException is
wrapped in a RuntimeError; a KeyError from the loop propagates as is (it is
not a RequestException, so the except clause does not catch it). -/
def InsiderAPIService.list_invalid_days (svc : InsiderAPIService) (net : Network)
    (year month : Int) : List HttpCall × Except String InvalidDaysResult :=
  let ep := svc.calendar_endpoint year month
  match net.getCalendar ep with
  | .error e => ([.get ep], .error ("Failed to fetch timesheet calendar: " ++ e))
  | .ok days =>
    match processDays days with
    | .error e => ([.get ep], .error e)
    | .ok infos => ([.get ep], .ok ⟨monthLabel year month, infos.length, infos⟩)

/-- The three environment values read at startup. -/
structure Env where
  auth_token : String
  user_id : String
  emp_code : String

/-- The argument mapping passed to call_tool, already shaped by tool schema
(the empty mapping for list_projects). -/
inductive ToolArguments where
  | empty
  | logTime (a : LogTimeInput)
  | invalidDays (a : ListInvalidDaysInput)

/-- The success envelope json-dumped by the log_time_project branch. -/
structure LogTimeEnvelope where
  success : Bool
  message : String
  details : LogTimeResult
deriving DecidableEq

/-- The error payload json-dumped by the dispatch-boundary except clause. -/
structure ErrorPayload where
  error : String
deriving DecidableEq

/-- The TextContent produced by one call_tool invocation: the list_projects
markdown, the log_time success envelope, the invalid-days report (its markdown
rendering elided, the underlying result kept), or the error payload. -/
inductive CallResult where
  | text (s : String)
  | logTimeOk (e : LogTimeEnvelope)
  | report (r : InvalidDaysResult)
  | errorPayload (p : ErrorPayload)
deriving DecidableEq

/-- One markdown bullet of the list_projects output. -/
def projectBullet (p : Project) : String :=
  "- **" ++ p.name ++ "** (ID: " ++ toString p.id ++ ")\n"

/-- The markdown document built by the list_projects branch of call_tool. -/
def renderProjects (ps : List Project) : String :=
  let header := "# Available Projects\n\n"
  if ps.isEmpty then header ++ "No projects found.\n"
  else ps.foldl (fun acc p => acc ++ projectBullet p) header

/-- The body of call_tool inside its outermost try: construct the service
(its ValueError rewrapped as a RuntimeError), then dispatch on the tool name,
validating arguments before any service call; an unknown name raises
ValueError.  Any .error here is an exception reaching the dispatch boundary. -/
def call_tool_body (env : Env) (name : String) (args : ToolArguments)
    (net : Network) : List HttpCall × Except String CallResult :=
  match InsiderAPIService.init env.auth_token env.user_id env.emp_code with
  | .error e => ([], .error ("Service initialization failed: " ++ e))
  | .ok service =>
    if name = "list_projects" then
      let r := service.list_projects net
      (r.1, r.2.map (fun ps => .text (renderProjects ps)))
    else if name = "log_time_project" then
      match args with
      | .logTime raw =>
        match raw.validate with
        | .error e => ([], .error e)
        | .ok inp =>
          let r := service.log_time inp net
          (r.1, r.2.map (fun res => .logTimeOk ⟨true, "Time logged successfully", res⟩))
      | _ => ([], .error "validation error: invalid arguments for log_time_project")
    else if name = "list_invalid_days" then
      match args with
      | .invalidDays raw =>
        match raw.validate net.nowYear with
        | .error e => ([], .error e)
        | .ok q =>
          let r := service.list_invalid_days net q.year q.month
          (r.1, r.2.map (fun res => .report res))
      | _ => ([], .error "validation error: invalid arguments for list_invalid_days")
    else
      ([], .error ("Unknown tool: " ++ name))

/-- Model of the call_tool handler: the outermost except Exception clause turns
any exception from the body into the json error payload, so the handler always
returns a result to the transport layer. -/
def call_tool (env : Env) (name : String) (args : ToolArguments) (net : Network) :
    List HttpCall × CallResult :=
  match call_tool_body env name args net with
  | (tr, .ok out) => (tr, out)
  | (tr, .error e) => (tr, .errorPayload ⟨e⟩)

/-! Helper facts and concrete fixtures used by the theorems below. -/

/-- A substring test over the character lists of two strings, used to state
that an error message does or does not mention a given name. -/
def hasSubList (sub : List Char) : List Char → Bool
  | [] => sub.isEmpty
  | c :: cs => sub.isPrefixOf (c :: cs) || hasSubList sub cs

/-- Whether sub occurs contiguously inside s. -/
def strMentions (s sub : String) : Bool :=
  hasSubList sub.data s.data

/-- A network oracle whose calls all succeed with empty data. -/
def okNet : Network :=
  { nowYear := 2026
    getProjects := fun _ => .ok []
    postTimesheet := fun _ _ => .ok ()
    getCalendar := fun _ => .ok [] }

/-- A fully configured environment. -/
def cfgEnv : Env := ⟨"token", "186", "emp.code"⟩

/-- An environment with all three credentials missing. -/
def bareEnv : Env := ⟨"", "", ""⟩

theorem list_invalid_days_trace (svc : InsiderAPIService) (net : Network)
    (year month : Int) :
    (svc.list_invalid_days net year month).1 =
      [HttpCall.get (svc.calendar_endpoint year month)] := by
  unfold InsiderAPIService.list_invalid_days
  cases h : net.getCalendar (svc.calendar_endpoint year month) with
  | error e => simp [h]
  | ok days =>
    cases h2 : processDays days with
    | error e => simp [h, h2]
    | ok infos => simp [h, h2]

/-- C3 (amended): for every year from 2020 on and month in [1,12], the queried
range runs from the first day of the month to its last day: the day before the
first of the following month, December rolling over to the next year's
January 1 minus one day, which is December 31 of the same year (so year=2024,
month=12 ends 2024-12-31, not 2025-01-31); year=2025, month=2 ends 2025-02-28
and year=2024, month=2 ends 2024-02-29; the single calendar GET uses exactly
this range. -/
theorem invalidDaysRange_month_bounds (year month : Int)
    (_hy1 : 2020 ≤ year) (hm1 : 1 ≤ month) (hm2 : month ≤ 12) :
    invalidDaysRange year month =
      (⟨year, month, 1⟩, ⟨year, month, daysInMonth year month⟩) ∧
    ∀ svc : InsiderAPIService, ∀ net : Network,
      (svc.list_invalid_days net year month).1 =
        [HttpCall.get (svc.calendar_endpoint year month)] := by
  refine ⟨?_, fun svc net => list_invalid_days_trace svc net year month⟩
  by_cases h12 : month = 12
  · subst h12
    simp [invalidDaysRange, Date.predDay, daysInMonth]
  · have h1 : (1 : Int) < month + 1 := by omega
    have hne : ¬ (1 : Int) < 1 := by omega
    simp [invalidDaysRange, Date.predDay, h12, h1, hne]

/-- C3 counterexample: for year 2024 and month 12 the computed range ends on
2024-12-31, not on 2025-01-31 as the claim's concrete instance states. -/
theorem invalidDaysRange_december_cex :
    (invalidDaysRange 2024 12).2 = ⟨2024, 12, 31⟩ ∧
    (invalidDaysRange 2024 12).2 ≠ (⟨2025, 1, 31⟩ : Date) ∧
    (invalidDaysRange 2024 12).2.fmt = "2024-12-31" := by
  refine ⟨by decide, by decide, by decide⟩

/-- Witness for the amended C3 theorem at the claim's concrete instances. -/
theorem invalidDaysRange_month_bounds_witness :
    invalidDaysRange 2025 2 = (⟨2025, 2, 1⟩, ⟨2025, 2, 28⟩) ∧
    invalidDaysRange 2024 2 = (⟨2024, 2, 1⟩, ⟨2024, 2, 29⟩) ∧
    invalidDaysRange 2024 12 = (⟨2024, 12, 1⟩, ⟨2024, 12, 31⟩) := by
  refine ⟨?_, ?_, ?_⟩
  · exact ((invalidDaysRange_month_bounds 2025 2 (by decide) (by decide) (by decide)).1).trans
      (by decide)
  · exact ((invalidDaysRange_month_bounds 2024 2 (by decide) (by decide) (by decide)).1).trans
      (by decide)
  · exact ((invalidDaysRange_month_bounds 2024 12 (by decide) (by decide) (by decide)).1).trans
      (by decide)

/-- C4: a day is classified invalid exactly when its isValid field is present
and false; a day whose classification is valid (in particular one whose
isValid field is missing) is skipped by the filtering loop. -/
theorem isInvalidDay_iff (d : DayData) (rest : List DayData) :
    (isInvalidDay d = true ↔ d.isValid = some false) ∧
    (d.isValid = none → isInvalidDay d = false) ∧
    (isInvalidDay d = false → processDays (d :: rest) = processDays rest) := by
  refine ⟨?_, ?_, ?_⟩
  · rcases hv : d.isValid with _ | b
    · simp [isInvalidDay, hv]
    · rcases b <;> simp [isInvalidDay, hv]
  · intro hv
    simp [isInvalidDay, hv]
  · intro h
    simp [processDays, h]

/-- Witness for C4: a day with isValid false is classified invalid, and a day
with isValid missing is skipped by the loop. -/
theorem isInvalidDay_iff_witness :
    isInvalidDay { isValid := some false } = true ∧
    processDays [{ isValid := none }] = processDays [] := by
  have h1 := isInvalidDay_iff { isValid := some false } []
  have h2 := isInvalidDay_iff ({ isValid := none } : DayData) []
  exact ⟨h1.1.mpr rfl, h2.2.2 (h2.2.1 rfl)⟩

/-- C5: every record built for an invalid day carries currentLoggedHours equal
to the sum of the hours fields over its logTimes sub-array (a missing hours
field contributing 0, a missing logTimes array giving the empty sum) and
shortfall equal to 8 minus that sum. -/
theorem processDay_hours_sum (d : DayData) (ld : String) (h : d.logDate = some ld) :
    ∃ info, processDay d = .ok info ∧
      info.currentLoggedHours =
        ((d.logTimes.getD []).map (fun lt => lt.hours.getD 0)).sum ∧
      info.shortfall = 8 - info.currentLoggedHours := by
  refine ⟨{ date := ld.take 10
            invalidMessage := d.invalidMessage.getD "No message provided"
            currentLoggedHours := dayTotalHours d
            expectedHours := 8
            shortfall := 8 - dayTotalHours d
            isNormalWorkingDay := d.isNormalWorkingDay.getD false
            isPublicHoliday := d.isPublicHoliday.getD false
            logTimes := d.logTimes.getD [] }, ?_, rfl, rfl⟩
  unfold processDay
  rw [h]

/-- A concrete invalid day with log entries of 3 and 2 hours. -/
def fixtureDay : DayData :=
  { logDate := some "2025-03-03"
    isValid := some false
    logTimes := some [{ hours := some 3 }, { hours := some 2 }] }

/-- Witness for C5 at the claim's concrete instance: logTimes of 3 and 2 hours
give currentLoggedHours 5 and shortfall 3. -/
theorem processDay_hours_sum_witness :
    ∃ info, processDay fixtureDay = .ok info ∧
      info.currentLoggedHours = 5 ∧ info.shortfall = 3 := by
  obtain ⟨info, h1, h2, h3⟩ := processDay_hours_sum fixtureDay "2025-03-03" rfl
  refine ⟨info, h1, ?_, ?_⟩
  · rw [h2]
    show ((fixtureDay.logTimes.getD []).map (fun lt => lt.hours.getD 0)).sum = 5
    simp [fixtureDay]
    norm_num
  · rw [h3, h2]
    show (8 : ℚ) - ((fixtureDay.logTimes.getD []).map (fun lt => lt.hours.getD 0)).sum = 3
    simp [fixtureDay]
    norm_num

theorem log_time_go_all_ok (svc : InsiderAPIService) (inp : LogTimeInput)
    (net : Network) (uid : Int) (hu : strToInt? svc.user_id = some uid) :
    ∀ ds : List String,
      (∀ d ∈ ds,
        net.postTimesheet svc.timesheet_add_endpoint
          (mkTimesheetPayload svc inp uid d) = .ok ()) →
      log_time_go svc inp net ds =
        (ds.map fun d =>
           .post svc.timesheet_add_endpoint (mkTimesheetPayload svc inp uid d),
         .ok (ds.map fun d => doneLine inp.projectId d)) := by
  intro ds
  induction ds with
  | nil => intro _; rfl
  | cons d rest ih =>
    intro h
    have hd := h d (by simp)
    have hr := ih (fun x hx => h x (by simp [hx]))
    simp [log_time_go, hu, hd, hr, Except.map]

theorem log_time_go_stops_at_failure (svc : InsiderAPIService)
    (inp : LogTimeInput) (net : Network) (uid : Int)
    (hu : strToInt? svc.user_id = some uid) :
    ∀ (pre : List String) (d : String) (suf : List String) (e : String),
      (∀ x ∈ pre,
        net.postTimesheet svc.timesheet_add_endpoint
          (mkTimesheetPayload svc inp uid x) = .ok ()) →
      net.postTimesheet svc.timesheet_add_endpoint
        (mkTimesheetPayload svc inp uid d) = .error e →
      log_time_go svc inp net (pre ++ d :: suf) =
        ((pre ++ [d]).map fun x =>
           .post svc.timesheet_add_endpoint (mkTimesheetPayload svc inp uid x),
         .error ("Failed to log time: " ++ e)) := by
  intro pre
  induction pre with
  | nil =>
    intro d suf e _ hd
    simp [log_time_go, hu, hd]
  | cons p rest ih =>
    intro d suf e h hd
    have hp := h p (by simp)
    have hr := ih d suf e (fun x hx => h x (by simp [hx])) hd
    simp [log_time_go, hu, hp, hr, Except.map]

/-- C1: on a validated request, log_time issues exactly one POST to the
timesheet/add endpoint per date of logDates, processed strictly in input
order, each payload carrying the request's projectId, hourRate, activity and
comment and the date as logDate; when every POST succeeds the result lists one
done line per date, and when the POST for some date fails, the POSTs issued are
exactly those for the earlier dates plus the failing one (no later date is
attempted, the earlier POSTs are not rolled back) and the error is surfaced
immediately. -/
theorem log_time_sequential (svc : InsiderAPIService) (inp : LogTimeInput)
    (net : Network) (uid : Int) (hu : strToInt? svc.user_id = some uid) :
    ((∀ d ∈ inp.logDates,
        net.postTimesheet svc.timesheet_add_endpoint
          (mkTimesheetPayload svc inp uid d) = .ok ()) →
      svc.log_time inp net =
        (inp.logDates.map fun d =>
           .post svc.timesheet_add_endpoint (mkTimesheetPayload svc inp uid d),
         .ok ⟨inp.logDates.map fun d => doneLine inp.projectId d⟩)) ∧
    (∀ (pre : List String) (d : String) (suf : List String) (e : String),
      inp.logDates = pre ++ d :: suf →
      (∀ x ∈ pre,
        net.postTimesheet svc.timesheet_add_endpoint
          (mkTimesheetPayload svc inp uid x) = .ok ()) →
      net.postTimesheet svc.timesheet_add_endpoint
        (mkTimesheetPayload svc inp uid d) = .error e →
      svc.log_time inp net =
        ((pre ++ [d]).map fun x =>
           .post svc.timesheet_add_endpoint (mkTimesheetPayload svc inp uid x),
         .error ("Failed to log time: " ++ e))) ∧
    (∀ d, (mkTimesheetPayload svc inp uid d).projectId = inp.projectId ∧
          (mkTimesheetPayload svc inp uid d).hourRate = inp.hourRate ∧
          (mkTimesheetPayload svc inp uid d).activity = inp.activity ∧
          (mkTimesheetPayload svc inp uid d).comment = inp.comment ∧
          (mkTimesheetPayload svc inp uid d).logDate = d) := by
  refine ⟨?_, ?_, fun d => ⟨rfl, rfl, rfl, rfl, rfl⟩⟩
  · intro h
    unfold InsiderAPIService.log_time
    rw [log_time_go_all_ok svc inp net uid hu inp.logDates h]
    rfl
  · intro pre d suf e hsplit hpre hd
    unfold InsiderAPIService.log_time
    rw [hsplit, log_time_go_stops_at_failure svc inp net uid hu pre d suf e hpre hd]
    rfl

/-- A configured service as built from cfgEnv. -/
def cfgSvc : InsiderAPIService := ⟨"token", "186", "emp.code", API_BASE_URL⟩

/-- A validated two-date request fixture. -/
def twoDateInp : LogTimeInput :=
  { projectId := 7, hours := 4, logDates := ["2025-01-02", "2025-01-03"],
    hourRate := 1, activity := 1, comment := "work" }

/-- Witness for C1: with two dates and an always-succeeding upstream, exactly
the two POSTs are issued, in order, and the result carries one done line per
date. -/
theorem log_time_sequential_witness :
    cfgSvc.log_time twoDateInp okNet =
      ([.post (API_BASE_URL ++ "/timesheet/add")
          (mkTimesheetPayload cfgSvc twoDateInp 186 "2025-01-02"),
        .post (API_BASE_URL ++ "/timesheet/add")
          (mkTimesheetPayload cfgSvc twoDateInp 186 "2025-01-03")],
       .ok ⟨["Project: 7, date: 2025-01-02, status: done",
             "Project: 7, date: 2025-01-03, status: done"]⟩) := by
  have h := (log_time_sequential cfgSvc twoDateInp okNet 186 (by decide)).1 (fun d _ => rfl)
  exact h.trans rfl

/-- C9: a log_time_project call whose logDates is empty (its other fields
passing validation) is accepted with zero POSTs and the success envelope
carrying an empty result list. -/
theorem log_time_empty_dates (env : Env) (net : Network) (args : LogTimeInput)
    (hc1 : env.auth_token ≠ "") (hc2 : env.user_id ≠ "") (hc3 : env.emp_code ≠ "")
    (hdates : args.logDates = [])
    (h1 : ¬ args.hours < 1/2) (h2 : ¬ 8 < args.hours) :
    call_tool env "log_time_project" (.logTime args) net =
      ([], .logTimeOk ⟨true, "Time logged successfully", ⟨[]⟩⟩) := by
  rw [show (1 : ℚ)/2 = 2⁻¹ from by norm_num] at h1
  simp [call_tool, call_tool_body, InsiderAPIService.init, hc1, hc2, hc3,
        LogTimeInput.validate, h1, h2, InsiderAPIService.log_time, hdates,
        log_time_go, Except.map]

/-- Witness for C9 at a concrete empty-dates request. -/
theorem log_time_empty_dates_witness :
    call_tool cfgEnv "log_time_project"
        (.logTime { projectId := 7, hours := 4, logDates := [] }) okNet =
      ([], .logTimeOk ⟨true, "Time logged successfully", ⟨[]⟩⟩) := by
  exact log_time_empty_dates cfgEnv okNet
    { projectId := 7, hours := 4, logDates := [] }
    (by decide) (by decide) (by decide) rfl (by norm_num) (by norm_num)

/-- C2 (amended): of the constraints the claim lists, only the hours range
[0.5, 8] is declared and enforced: whenever hours violates it, the tool
rejects with an error payload and zero network calls; the hourRate and
activity code sets and logDates non-emptiness are not validated at all. -/
theorem log_time_hours_validated (env : Env) (net : Network) (args : LogTimeInput)
    (h : args.hours < 1/2 ∨ 8 < args.hours) :
    (call_tool env "log_time_project" (.logTime args) net).1 = [] ∧
    ∃ p, (call_tool env "log_time_project" (.logTime args) net).2 = .errorPayload p := by
  have hval : ∃ e, args.validate = .error e := by
    unfold LogTimeInput.validate
    rcases h with h | h
    · exact ⟨_, if_pos h⟩
    · by_cases h0 : args.hours < 1/2
      · exact ⟨_, if_pos h0⟩
      · rw [if_neg h0, if_pos h]
        exact ⟨_, rfl⟩
  obtain ⟨e, hval⟩ := hval
  cases hinit : InsiderAPIService.init env.auth_token env.user_id env.emp_code with
  | error e2 => simp [call_tool, call_tool_body, hinit]
  | ok svc => simp [call_tool, call_tool_body, hinit, hval]

/-- A request whose hourRate is outside the documented code set. -/
def badRateArgs : LogTimeInput :=
  { projectId := 7, hours := 4, logDates := ["2025-01-02"], hourRate := 99,
    activity := 1, comment := "" }

/-- C2 counterexample: hourRate 99 violates the claimed constraint set
{1,2,3,4}, yet validation passes and the tool issues a POST, so a violating
argument does not imply a validation error with zero network calls. -/
theorem log_time_rate_unchecked_cex :
    (¬ (badRateArgs.hourRate = 1 ∨ badRateArgs.hourRate = 2 ∨
        badRateArgs.hourRate = 3 ∨ badRateArgs.hourRate = 4)) ∧
    (call_tool cfgEnv "log_time_project" (.logTime badRateArgs) okNet).1 ≠ [] := by
  refine ⟨by decide, ?_⟩
  have h4 : ¬ (badRateArgs.hours < 2⁻¹) := by
    show ¬ ((4 : ℚ) < 2⁻¹)
    norm_num
  have h8 : ¬ ((8 : ℚ) < badRateArgs.hours) := by
    show ¬ ((8 : ℚ) < 4)
    norm_num
  have hu : strToInt? "186" = some 186 := by decide
  have hld : badRateArgs.logDates = ["2025-01-02"] := rfl
  simp [call_tool, call_tool_body, InsiderAPIService.init, cfgEnv,
        LogTimeInput.validate, h4, h8, InsiderAPIService.log_time, hld,
        log_time_go, hu, okNet, InsiderAPIService.timesheet_add_endpoint,
        Except.map]

/-- Witness for the amended C2 theorem at hours = 9. -/
theorem log_time_hours_validated_witness :
    (call_tool cfgEnv "log_time_project"
        (.logTime { projectId := 7, hours := 9, logDates := ["2025-01-02"] }) okNet).1 = [] ∧
    ∃ p, (call_tool cfgEnv "log_time_project"
        (.logTime { projectId := 7, hours := 9, logDates := ["2025-01-02"] }) okNet).2 =
      .errorPayload p := by
  exact log_time_hours_validated cfgEnv okNet
    { projectId := 7, hours := 9, logDates := ["2025-01-02"] } (Or.inr (by norm_num))

/-- C6 (amended): with any credential absent, every tool call fails before any
network call, and the error payload names only the first missing variable in
the fixed order auth token, user id, employee code. -/
theorem missing_credentials_first_named (env : Env) (name : String)
    (args : ToolArguments) (net : Network) :
    (env.auth_token = "" →
      call_tool env name args net =
        ([], .errorPayload ⟨"Service initialization failed: " ++
          ("Auth token not provided (" ++ AUTH_TOKEN_ENV ++ " environment variable)")⟩)) ∧
    (env.auth_token ≠ "" → env.user_id = "" →
      call_tool env name args net =
        ([], .errorPayload ⟨"Service initialization failed: " ++
          ("User ID not provided (" ++ USER_ID_ENV ++ " environment variable)")⟩)) ∧
    (env.auth_token ≠ "" → env.user_id ≠ "" → env.emp_code = "" →
      call_tool env name args net =
        ([], .errorPayload ⟨"Service initialization failed: " ++
          ("Employee code not provided (" ++ EMP_CODE_ENV ++ " environment variable)")⟩)) := by
  refine ⟨?_, ?_, ?_⟩
  · intro h1
    simp [call_tool, call_tool_body, InsiderAPIService.init, h1]
  · intro h1 h2
    simp [call_tool, call_tool_body, InsiderAPIService.init, h1, h2]
  · intro h1 h2 h3
    simp [call_tool, call_tool_body, InsiderAPIService.init, h1, h2, h3]

/-- C6 counterexample: with all three credentials missing, the error payload
is exactly the auth-token message; it does not mention INSIDER_USER_ID or
INSIDER_EMP_CODE, so the claim that every missing variable is named fails. -/
theorem missing_credentials_cex :
    call_tool bareEnv "list_projects" .empty okNet =
      ([], .errorPayload
        ⟨"Service initialization failed: Auth token not provided (INSIDER_AUTH_TOKEN environment variable)"⟩) ∧
    strMentions
      "Service initialization failed: Auth token not provided (INSIDER_AUTH_TOKEN environment variable)"
      USER_ID_ENV = false ∧
    strMentions
      "Service initialization failed: Auth token not provided (INSIDER_AUTH_TOKEN environment variable)"
      EMP_CODE_ENV = false := by
  exact ⟨rfl, by decide, by decide⟩

/-- Witness for the amended C6 theorem with only the token missing. -/
theorem missing_credentials_first_named_witness :
    call_tool ⟨"", "186", "emp.code"⟩ "list_projects" .empty okNet =
      ([], .errorPayload ⟨"Service initialization failed: " ++
        ("Auth token not provided (" ++ AUTH_TOKEN_ENV ++ " environment variable)")⟩) := by
  exact (missing_credentials_first_named ⟨"", "186", "emp.code"⟩ "list_projects"
    .empty okNet).1 rfl

/-- C7: a tool name outside the registry yields no network call and an error
payload whose message contains (indeed starts with) the substring
Unknown tool; and every exceptional outcome of the dispatch body is returned
as an error payload at the boundary rather than raised. -/
theorem unknown_tool_error (env : Env) (name : String) (args : ToolArguments)
    (net : Network)
    (hc1 : env.auth_token ≠ "") (hc2 : env.user_id ≠ "") (hc3 : env.emp_code ≠ "")
    (hn1 : name ≠ "list_projects") (hn2 : name ≠ "log_time_project")
    (hn3 : name ≠ "list_invalid_days") :
    call_tool env name args net = ([], .errorPayload ⟨"Unknown tool: " ++ name⟩) ∧
    (∃ rest, "Unknown tool: " ++ name = "Unknown tool" ++ rest) ∧
    (∀ (env2 : Env) (name2 : String) (args2 : ToolArguments) (net2 : Network)
        (tr : List HttpCall) (e : String),
      call_tool_body env2 name2 args2 net2 = (tr, .error e) →
      call_tool env2 name2 args2 net2 = (tr, .errorPayload ⟨e⟩)) := by
  refine ⟨?_, ⟨": " ++ name, ?_⟩, ?_⟩
  · simp [call_tool, call_tool_body, InsiderAPIService.init, hc1, hc2, hc3,
          hn1, hn2, hn3]
  · rw [← String.append_assoc]
    rfl
  · intro env2 name2 args2 net2 tr e h
    unfold call_tool
    rw [h]

/-- Witness for C7 at a concrete unregistered tool name. -/
theorem unknown_tool_error_witness :
    call_tool cfgEnv "frobnicate" .empty okNet =
      ([], .errorPayload ⟨"Unknown tool: frobnicate"⟩) := by
  have h := (unknown_tool_error cfgEnv "frobnicate" .empty okNet (by decide) (by decide)
    (by decide) (by decide) (by decide) (by decide)).1
  exact h.trans rfl

theorem foldl_append_join (l : List String) (first : String) :
    l.foldl (fun acc s => acc ++ s) first = first ++ String.join l := by
  induction l generalizing first with
  | nil => exact (String.append_empty first).symm
  | cons s rest ih =>
    show rest.foldl (fun acc t => acc ++ t) (first ++ s) = first ++ String.join (s :: rest)
    rw [ih (first ++ s)]
    have hj : String.join (s :: rest) = s ++ String.join rest := by
      have h1 : String.join (s :: rest) = rest.foldl (fun acc t => acc ++ t) ("" ++ s) := rfl
      rw [h1, ih ("" ++ s), String.empty_append]
    rw [hj, String.append_assoc]

theorem renderProjects_eq (ps : List Project) :
    renderProjects ps =
      (if ps.isEmpty then "# Available Projects\n\n" ++ "No projects found.\n"
       else "# Available Projects\n\n" ++ String.join (ps.map projectBullet)) := by
  unfold renderProjects
  by_cases h : ps.isEmpty
  · simp [h]
  · simp only [h, Bool.false_eq_true, if_false]
    rw [← List.foldl_map, foldl_append_join]

/-- C8: with an empty upstream project array, list_projects returns the
markdown document whose body is the single No-projects line; with a non-empty
array it returns the header followed by one bullet per project. -/
theorem list_projects_render (env : Env) (net : Network) (ps : List Project)
    (hc1 : env.auth_token ≠ "") (hc2 : env.user_id ≠ "") (hc3 : env.emp_code ≠ "")
    (hresp : net.getProjects
      (API_BASE_URL ++ "/project/get-basic/user/" ++ env.user_id) = .ok ps) :
    (ps = [] →
      call_tool env "list_projects" .empty net =
        ([.get (API_BASE_URL ++ "/project/get-basic/user/" ++ env.user_id)],
         .text ("# Available Projects\n\n" ++ "No projects found.\n"))) ∧
    (ps ≠ [] →
      call_tool env "list_projects" .empty net =
        ([.get (API_BASE_URL ++ "/project/get-basic/user/" ++ env.user_id)],
         .text ("# Available Projects\n\n" ++ String.join (ps.map projectBullet)))) := by
  constructor
  · intro hps
    subst hps
    simp [call_tool, call_tool_body, InsiderAPIService.init, hc1, hc2, hc3,
          InsiderAPIService.list_projects, InsiderAPIService.projects_endpoint,
          hresp, renderProjects, Except.map]
  · intro hps
    obtain ⟨p, rest, rfl⟩ : ∃ p rest, ps = p :: rest := by
      cases ps with
      | nil => exact absurd rfl hps
      | cons p rest => exact ⟨p, rest, rfl⟩
    simp [call_tool, call_tool_body, InsiderAPIService.init, hc1, hc2, hc3,
          InsiderAPIService.list_projects, InsiderAPIService.projects_endpoint,
          hresp, renderProjects_eq, Except.map]

/-- A network oracle returning a single project. -/
def oneProjNet : Network :=
  { nowYear := 2026
    getProjects := fun _ => .ok [⟨10522, "Fusang"⟩]
    postTimesheet := fun _ _ => .ok ()
    getCalendar := fun _ => .ok [] }

/-- Witness for C8: the empty-array and one-project renderings at concrete
inputs. -/
theorem list_projects_render_witness :
    call_tool cfgEnv "list_projects" .empty okNet =
      ([.get (API_BASE_URL ++ "/project/get-basic/user/" ++ cfgEnv.user_id)],
       .text ("# Available Projects\n\n" ++ "No projects found.\n")) ∧
    call_tool cfgEnv "list_projects" .empty oneProjNet =
      ([.get (API_BASE_URL ++ "/project/get-basic/user/" ++ cfgEnv.user_id)],
       .text "# Available Projects\n\n- **Fusang** (ID: 10522)\n") := by
  constructor
  · exact (list_projects_render cfgEnv okNet [] (by decide) (by decide) (by decide)
      rfl).1 rfl
  · have h := (list_projects_render cfgEnv oneProjNet [⟨10522, "Fusang"⟩] (by decide)
      (by decide) (by decide) rfl).2 (by decide)
    exact h.trans (by rfl)

theorem processDay_error_eq (d : DayData) (e : String)
    (h : processDay d = .error e) : e = "KeyError: logDate" := by
  rcases hld : d.logDate with _ | ld
  · unfold processDay at h
    rw [hld] at h
    exact (Except.error.inj h).symm
  · unfold processDay at h
    rw [hld] at h
    exact absurd h (by simp)

theorem processDays_error_of_missing (days : List DayData)
    (h : ∃ d ∈ days, isInvalidDay d = true ∧ d.logDate = none) :
    processDays days = .error "KeyError: logDate" := by
  induction days with
  | nil =>
    obtain ⟨d, hd, _⟩ := h
    cases hd
  | cons d rest ih =>
    obtain ⟨x, hx, hinv, hnone⟩ := h
    rcases List.mem_cons.mp hx with rfl | hx2
    · simp [processDays, hinv, processDay, hnone]
    · by_cases hd : isInvalidDay d = true
      · cases hpd : processDay d with
        | error e =>
          have he := processDay_error_eq d e hpd
          simp [processDays, hd, hpd, he]
        | ok info =>
          simp [processDays, hd, hpd, ih ⟨x, hx2, hinv, hnone⟩, Except.map]
      · have hd2 : isInvalidDay d = false := by simpa using hd
        simp [processDays, hd2, ih ⟨x, hx2, hinv, hnone⟩]

/-- C10: if any day classified invalid lacks the logDate key, the whole
list_invalid_days call fails: the unguarded logDate lookup aborts the loop,
no report is produced for any day of the month, and the caller receives an
error payload instead. -/
theorem missing_key_aborts_report (env : Env) (net : Network)
    (q : ListInvalidDaysInput) (days : List DayData) (d : DayData)
    (hc1 : env.auth_token ≠ "") (hc2 : env.user_id ≠ "") (hc3 : env.emp_code ≠ "")
    (hy1 : 2020 ≤ q.year) (hy2 : q.year ≤ net.nowYear + 1)
    (hm1 : 1 ≤ q.month) (hm2 : q.month ≤ 12)
    (hcal : net.getCalendar (API_BASE_URL ++ "/timesheet/" ++ env.emp_code ++
        "/timesheetCalendar/" ++ (invalidDaysRange q.year q.month).1.fmt ++ "/" ++
        (invalidDaysRange q.year q.month).2.fmt) = .ok days)
    (hd : d ∈ days) (hinv : isInvalidDay d = true) (hmiss : d.logDate = none) :
    call_tool env "list_invalid_days" (.invalidDays q) net =
      ([.get (API_BASE_URL ++ "/timesheet/" ++ env.emp_code ++ "/timesheetCalendar/" ++
          (invalidDaysRange q.year q.month).1.fmt ++ "/" ++
          (invalidDaysRange q.year q.month).2.fmt)],
       .errorPayload ⟨"KeyError: logDate"⟩) ∧
    ∀ r, (call_tool env "list_invalid_days" (.invalidDays q) net).2 ≠ .report r := by
  have hproc := processDays_error_of_missing days ⟨d, hd, hinv, hmiss⟩
  have hval : ¬ (q.year < 2020 ∨ net.nowYear + 1 < q.year) := by omega
  have hm1n : ¬ q.month < 1 := by omega
  have hm2n : ¬ (12 : Int) < q.month := by omega
  have hmain : call_tool env "list_invalid_days" (.invalidDays q) net =
      ([.get (API_BASE_URL ++ "/timesheet/" ++ env.emp_code ++ "/timesheetCalendar/" ++
          (invalidDaysRange q.year q.month).1.fmt ++ "/" ++
          (invalidDaysRange q.year q.month).2.fmt)],
       .errorPayload ⟨"KeyError: logDate"⟩) := by
    simp [call_tool, call_tool_body, InsiderAPIService.init, hc1, hc2, hc3,
          ListInvalidDaysInput.validate, hval, hm1n, hm2n,
          InsiderAPIService.list_invalid_days, InsiderAPIService.calendar_endpoint,
          hcal, hproc, Except.map]
  refine ⟨hmain, fun r => ?_⟩
  rw [hmain]
  simp

/-- A network oracle whose calendar contains an invalid day with no logDate. -/
def badDayNet : Network :=
  { nowYear := 2026
    getProjects := fun _ => .ok []
    postTimesheet := fun _ _ => .ok ()
    getCalendar := fun _ => .ok [{ isValid := some false }] }

/-- Witness for C10 at a concrete calendar containing an invalid day without a
logDate. -/
theorem missing_key_aborts_report_witness :
    call_tool cfgEnv "list_invalid_days" (.invalidDays ⟨2025, 2⟩) badDayNet =
      ([.get (API_BASE_URL ++ "/timesheet/" ++ cfgEnv.emp_code ++ "/timesheetCalendar/" ++
          (invalidDaysRange 2025 2).1.fmt ++ "/" ++ (invalidDaysRange 2025 2).2.fmt)],
       .errorPayload ⟨"KeyError: logDate"⟩) := by
  exact (missing_key_aborts_report cfgEnv badDayNet ⟨2025, 2⟩
    [{ isValid := some false }] { isValid := some false }
    (by decide) (by decide) (by decide) (by decide) (by decide) (by decide) (by decide)
    rfl (by simp) rfl rfl).1

end TimesheetMCP
